import Mathlib

/-!
Verification of the makross handler-chain engine, the body-limit middleware
and the access logger, as a shallow embedding of the Go sources.

Conventions of the embedding:
* Go machine integers (`int`, `int64`) are modelled as `Int`; no overflow is
  relevant at the sizes the claims exercise.
* Go errors are modelled by the inductive `Err`; a `nil` error is `none`,
  a non-nil error is `some e`.
* `http.Request` / the makross `Response` are modelled as records carrying
  exactly the fields the verified code touches.
* A handler (`makross.Handler`) is a function from a context to an optional
  pair of the updated context and an error; the outer `Option` is the
  partiality of the model (a `none` result stands for a run that the fuel of
  the interpreter could not finish, or a Go panic).
-/

namespace Makross

/-- Errors of the verified code.  `other` covers arbitrary handler errors. -/
inductive Err : Type where
  | tooLarge                -- makross.ErrStatusRequestEntityTooLarge
  | rendererNotRegistered   -- makross.ErrRendererNotRegistered
  | eof                     -- io.EOF from an exhausted underlying reader
  | other (msg : String)    -- any other error value a handler may return
deriving DecidableEq, Repr

/-! ### ByteBudgetReader (`blimit.limitedReader`, src/blimit/body_limit.go)

The underlying `io.ReadCloser` is modelled by the per-call responses it will
give: a list of pairs `(n, err)`, one per `Read` call, where `n` is the
number of bytes the call deposits in the buffer and `err` is the error the
underlying reader returns alongside it. -/

/-- `blimit.limitedReader` (body_limit.go lines 25-30).  The `context` field
of the Go struct is omitted: it is write-only in the source and never affects
the byte accounting the claims are about. -/
structure LimitedReader : Type where
  limit : Int                       -- BodyLimitConfig.limit
  read : Int                        -- bytes read so far
  reader : List (Nat × Option Err)  -- remaining responses of the wrapped reader
deriving DecidableEq, Repr

/-- `limitedReader.Read` (body_limit.go lines 92-99): obtain the underlying
reader's result `(n, err)`, add `n` to the running counter, and if the counter
now exceeds the limit return `ErrStatusRequestEntityTooLarge` in place of
`err`; otherwise pass the underlying result through. -/
def LimitedReader.Read (r : LimitedReader) : LimitedReader × Nat × Option Err :=
  match r.reader with
  | [] => (r, 0, some Err.eof)
  | (n, e) :: rest =>
    let read' := r.read + (n : Int)
    let r' : LimitedReader := { r with reader := rest, read := read' }
    if r.limit < read' then (r', n, some Err.tooLarge) else (r', n, e)

/-- `limitedReader.Reset` (body_limit.go lines 105-108): rebinds the wrapped
reader.  Faithful to the source, it does NOT touch the `read` counter (the Go
method only assigns `r.reader` and `r.context`). -/
def LimitedReader.Reset (r : LimitedReader) (reader : List (Nat × Option Err)) :
    LimitedReader :=
  { r with reader := reader }

/-- Driver: perform `k` consecutive `Read` calls, collecting each call's
`(n, err)` result in order. -/
def LimitedReader.readN : Nat → LimitedReader → LimitedReader × List (Nat × Option Err)
  | 0, r => (r, [])
  | k + 1, r =>
    let (r', n, e) := r.Read
    let (rf, outs) := LimitedReader.readN k r'
    (rf, (n, e) :: outs)

/-- Reference outcome list, following the claim's words: given ceiling `L` and
a running total `acc` before the call, each read of `n` bytes returns the
underlying result while the new total stays at most `L`, and returns the
too-large error as soon as the new total exceeds `L`. -/
def readOutcomesSpec (L : Int) : Int → List (Nat × Option Err) → List (Nat × Option Err)
  | _, [] => []
  | acc, (n, e) :: rest =>
    let acc' := acc + (n : Int)
    (n, if L < acc' then some Err.tooLarge else e) :: readOutcomesSpec L acc' rest

/-- Total number of bytes delivered by the underlying responses `cs`. -/
def chunkTotal (cs : List (Nat × Option Err)) : Nat :=
  (cs.map Prod.fst).sum

theorem readN_spec (L : Int) (cs : List (Nat × Option Err)) (a : Int) :
    LimitedReader.readN cs.length { limit := L, read := a, reader := cs } =
      ({ limit := L, read := a + (chunkTotal cs : Int), reader := [] },
        readOutcomesSpec L a cs) := by
  induction cs generalizing a with
  | nil => simp [LimitedReader.readN, readOutcomesSpec, chunkTotal]
  | cons hd tl ih =>
    obtain ⟨n, e⟩ := hd
    simp only [List.length_cons, LimitedReader.readN, LimitedReader.Read,
      readOutcomesSpec]
    by_cases h : L < a + (n : Int)
    · simp only [if_pos h, ih (a + (n : Int)), Prod.mk.injEq, LimitedReader.mk.injEq,
        chunkTotal, List.map_cons, List.sum_cons, true_and, and_true]
      push_cast
      ring
    · simp only [if_neg h, ih (a + (n : Int)), Prod.mk.injEq, LimitedReader.mk.injEq,
        chunkTotal, List.map_cons, List.sum_cons, true_and, and_true]
      push_cast
      ring

/-- Claim C4: for a limitedReader with ceiling `L` and counter starting at 0,
driving it through every response of the underlying stream yields: the counter
accumulates exactly the bytes obtained from the underlying stream; each read
whose cumulative total stays at most `L` returns the underlying stream's
result unchanged; each read pushing the cumulative total past `L` returns
`ErrStatusRequestEntityTooLarge`, wherever the chunk boundaries fall. -/
theorem limitedReader_enforces_budget (L : Int) (cs : List (Nat × Option Err)) :
    LimitedReader.readN cs.length { limit := L, read := 0, reader := cs } =
      ({ limit := L, read := (chunkTotal cs : Int), reader := [] },
        readOutcomesSpec L 0 cs) := by
  have h := readN_spec L cs 0
  simpa using h

/-- Claim C3 (code bug): `limitedReader.Reset` rebinds the underlying reader
but leaves the `read` counter untouched — a pooled reader that already counted
5 bytes in a previous request still reports 5 after `Reset`, not 0 as the
specification requires. -/
theorem limitedReader_reset_keeps_counter :
    (LimitedReader.Reset { limit := 8, read := 5, reader := [] } [(3, none)]) =
      { limit := 8, read := 5, reader := [(3, none)] } ∧ (5 : Int) ≠ 0 := by
  exact ⟨rfl, by decide⟩

/-! ### The request context (`makross.Context`, src/unnamed/part_000)

The handler list itself cannot live inside the context record (a handler is a
function on contexts, which would make the occurrence negative), so the model
keeps the resolved chain as an external parameter of `Context.Next` and the
context carries `nhandlers`, the chain's length, which is all `Abort` reads
from it (`len(c.handlers)`).  The store value type is a parameter `α`
standing for Go's `interface\x7b\x7d`. -/

/-- The standard-library context carried in the `ktx` field; the claims only
observe whether it is cancelled, and `context.Background()` never is. -/
structure Kontext : Type where
  cancelled : Bool
deriving DecidableEq, Repr

/-- `context.Background()`: a fresh, non-cancelled context. -/
def Kontext.background : Kontext := ⟨false⟩

/-- `http.Request`, restricted to the fields the verified code reads.
`body` is the underlying stream, modelled by its per-call responses exactly
as in `LimitedReader`; `limitedBody` records the substitution `req.Body = r`
performed by the body-limit middleware. -/
structure Request : Type where
  method : String
  url : String
  proto : String
  headers : List (String × String)
  remoteAddr : String
  contentLength : Int
  body : List (Nat × Option Err)
  limitedBody : Option LimitedReader

/-- The makross `Response`, restricted to what the verified code touches:
the status code, whether the header was already written (net/http ignores a
second `WriteHeader`), the header map and the accumulated body bytes. -/
structure Response : Type where
  status : Int
  committed : Bool
  headers : List (String × String)
  body : String

/-- `http.Header.Get` / `Response.Header().Set`: first value of a key, empty
string when absent; `set` replaces every binding of the key. -/
def headerGet (hs : List (String × String)) (k : String) : String :=
  match hs.lookup k with
  | some v => v
  | none => ""

def headerSet (hs : List (String × String)) (k v : String) : List (String × String) :=
  (k, v) :: hs.filter (fun p => p.fst ≠ k)

/-- `http.ResponseWriter.WriteHeader`: records the status code; a second call
after the response is committed is ignored (net/http semantics). -/
def Response.writeHeader (r : Response) (code : Int) : Response :=
  if r.committed then r else { r with status := code, committed := true }

def Response.setHeader (r : Response) (k v : String) : Response :=
  { r with headers := headerSet r.headers k v }

/-- A `DataWriter`'s `Write` method: serializes a payload into the response.
The payloads the claims exercise are byte strings. -/
def DWriter : Type := String → Response → Response × Option Err

/-- Modelled from the spec: `DefaultDataWriter` (the data-writer source file
is not part of the verified sources) writes the payload bytes to the response
body and reports no error. -/
def DefaultDataWriter : DWriter := fun s r => ({ r with body := r.body ++ s }, none)

/-- `makross.Context` (part_000 lines 13-24), with `α` the store value type.
`nhandlers` stands for `len(c.handlers)` (see the section comment), `renderer`
for `c.makross.renderer` (modelled as a name-indexed rendering function that
either fails or produces the rendered bytes), `accessLog` is the
instrumentation stream recording invocations of a logging callback, and
`poolGets` counts checkouts from the body-limit reader pool.  Route parameter
names/values are omitted: no claim mentions them and `Reset` does not touch
them. -/
structure Context (α : Type) : Type where
  request : Request
  response : Response
  ktx : Kontext
  data : Option (List (String × α))
  index : Int
  nhandlers : Nat
  writer : DWriter
  renderer : Option (String → Except Err String)
  accessLog : List String
  poolGets : Nat

/-- A `makross.Handler`: `func(*Context) error`, in state-passing form.  The
outer `Option` is the partiality of the model (`none` = the interpreter's
fuel ran out inside the handler, or a Go panic). -/
def Handler (α : Type) : Type := Context α → Option (Context α × Option Err)

/-- `Context.Get` (part_000 lines 90-92): lookup in the lazily allocated
store; a `nil` map yields `nil` for every key. -/
def Context.Get (c : Context α) (name : String) : Option α :=
  match c.data with
  | none => none
  | some m => m.lookup name

/-- `Context.Set` (part_000 lines 95-100): allocate the store on first write,
then bind the key. -/
def Context.Set (c : Context α) (name : String) (value : α) : Context α :=
  match c.data with
  | none => { c with data := some [(name, value)] }
  | some m => { c with data := some ((name, value) :: m.filter (fun p => p.fst ≠ name)) }

/-- `Context.Abort` (part_000 lines 176-178): `c.index = len(c.handlers)`. -/
def Context.Abort (c : Context α) : Context α :=
  { c with index := (c.nhandlers : Int) }

/-- The loop of `Context.Next` (part_000 lines 165-169):
`for n := len(c.handlers); c.index < n; c.index++`, invoking
`c.handlers[c.index]` each iteration and returning its error as soon as one
is non-nil.  A negative index inside the loop bound would make the Go slice
access panic, modelled by `none`; the fuel bounds the number of iterations
(the Go loop can run forever only if a handler moves the cursor backwards). -/
def nextLoop (hs : List (Handler α)) : Nat → Context α → Option (Context α × Option Err)
  | 0, _ => none
  | fuel + 1, c =>
    if 0 ≤ c.index ∧ c.index < (hs.length : Int) then
      match hs.get? c.index.toNat with
      | some h =>
        match h c with
        | none => none
        | some (c', some e) => some (c', some e)
        | some (c', none) => nextLoop hs fuel { c' with index := c'.index + 1 }
      | none => none
    else if c.index < (hs.length : Int) then
      none
    else
      some (c, none)

/-- `Context.Next` (part_000 lines 163-171): `c.index++`, then the loop. -/
def Context.Next (hs : List (Handler α)) (fuel : Nat) (c : Context α) :
    Option (Context α × Option Err) :=
  nextLoop hs fuel { c with index := c.index + 1 }

/-! ### Constants shared by the sources -/

def StatusOK : Int := 200

def HeaderContentType : String := "Content-Type"

def HeaderXRealIP : String := "X-Real-IP"

def HeaderXForwardedFor : String := "X-Forwarded-For"

def MIMETextPlainCharsetUTF8 : String := "text/plain; charset=UTF-8"

def MIMETextHTMLCharsetUTF8 : String := "text/html; charset=UTF-8"

/-! ### Client-IP helpers (src/access/access.go and `Context.RealIP`) -/

def lastIdxAux (ch : Char) : List Char → Nat → Option Nat → Option Nat
  | [], _, best => best
  | c :: rest, i, best => lastIdxAux ch rest (i + 1) (if c = ch then some i else best)

/-- `strings.LastIndex(s, string(ch))` as a character index; `none` plays Go's
-1.  The addresses the claims exercise are ASCII, where character and byte
indices coincide. -/
def strLastIndex (s : String) (ch : Char) : Option Nat :=
  lastIdxAux ch s.data 0 none

/-- Truncation at the last colon, as `GetClientIP` performs on its resolved
value: `if colon := strings.LastIndex(ip, ":"); colon != -1 \x7b ip = ip[:colon] \x7d`. -/
def stripLastColon (s : String) : String :=
  match strLastIndex s ':' with
  | none => s
  | some i => String.mk (s.data.take i)

/-- `access.GetClientIP` (access.go lines 92-104): resolve `X-Real-IP`, else
`X-Forwarded-For`, else `RemoteAddr`, then truncate the result (whatever its
source) at its last colon. -/
def GetClientIP (req : Request) : String :=
  let ip := headerGet req.headers "X-Real-IP"
  let ip :=
    if ip = "" then
      let ip2 := headerGet req.headers "X-Forwarded-For"
      if ip2 = "" then req.remoteAddr else ip2
    else ip
  stripLastColon ip

def firstIdxAux (ch : Char) : List Char → Nat → Option Nat
  | [], _ => none
  | c :: rest, i => if c = ch then some i else firstIdxAux ch rest (i + 1)

/-- Go's `byteIndex(s, ch)` as a character index; `none` plays -1.  The
addresses the claims exercise are ASCII, where character and byte indices
coincide. -/
def strFirstIndex (s : String) (ch : Char) : Option Nat :=
  firstIdxAux ch s.data 0

/-- Host component of Go's `net.SplitHostPort` as the assignment
`ra, _, _ = net.SplitHostPort(ra)` observes it (part_000 line 72): every
error case leaves the host empty.  Faithful to the stdlib: the port starts
after the last colon (no colon is a missing-port error); a bracketed address
`[host]:port` requires the first `]` to sit immediately before that colon
and yields the text between the brackets; an unbracketed host may not itself
contain a colon; a stray bracket anywhere else is an error. -/
def splitHostPortHost (s : String) : String :=
  match strLastIndex s ':' with
  | none => ""                         -- missing port in address
  | some i =>
    if s.data.head? = some '[' then    -- Go: hostPort[0] equal to the opening bracket
      match strFirstIndex s ']' with
      | none => ""                     -- missing closing bracket in address
      | some e =>
        if e + 1 = s.length then ""    -- nothing after the bracket: missing port
        else if e + 1 = i then
          -- the expected result: host is the text between the brackets,
          -- unless a stray bracket follows either of them
          if (s.data.drop 1).contains '[' || (s.data.drop (e + 1)).contains ']' then ""
          else String.mk ((s.data.take e).drop 1)
        else ""                        -- too many colons, or colon not after the bracket
    else
      let host := String.mk (s.data.take i)
      if host.data.contains ':' then ""   -- too many colons in address
      else if s.data.contains '[' || s.data.contains ']' then ""
      else host

/-- `Context.RealIP` (part_000 lines 64-75): `X-Forwarded-For` first, else
`X-Real-IP`, else `RemoteAddr` with `net.SplitHostPort` applied to it. -/
def Context.RealIP (c : Context α) : String :=
  let ra := c.request.remoteAddr
  let ipF := headerGet c.request.headers HeaderXForwardedFor
  if 0 < ipF.length then ipF
  else
    let ipR := headerGet c.request.headers HeaderXRealIP
    if 0 < ipR.length then ipR
    else splitHostPortHost ra

/-! ### Output helpers and `Reset` (part_000) -/

/-- `Context.Reset` (part_000 lines 266-274): rebind request/response, fresh
background context, nil store, cursor -1, default writer. -/
def Context.Reset (c : Context α) (response : Response) (request : Request) :
    Context α :=
  { c with response := response, request := request, ktx := Kontext.background,
           data := none, index := -1, writer := DefaultDataWriter }

/-- `Context.NoContent` (part_000 lines 250-259): status from the first
optional argument (200 OK when absent), written to the response; no `Abort`,
nil error. -/
def Context.NoContent (c : Context α) (status : List Int) : Context α × Option Err :=
  let code := match status with
    | code :: _ => code
    | [] => StatusOK
  ({ c with response := c.response.writeHeader code }, none)

/-- Alias used in the signature of `Context.String`, where the bare name
`String` would resolve to the declaration itself. -/
abbrev Str : Type := String

/-- `Context.String` (part_000 lines 236-248): plain-text content type,
status, body through the configured writer, then `Abort`. -/
def Context.String (c : Context α) (s : Str) (status : List Int) :
    Context α × Option Err :=
  let code := match status with
    | code :: _ => code
    | [] => StatusOK
  let r1 := c.response.setHeader HeaderContentType MIMETextPlainCharsetUTF8
  let r2 := r1.writeHeader code
  let (r3, err) := c.writer s r2
  (Context.Abort { c with response := r3 }, err)

/-- `Context.Render` (part_000 lines 215-234): fail when no renderer is
registered; render the named template; on success write content type, status,
the rendered bytes, and `Abort`.  On a renderer error, return it without
touching the response. -/
def Context.Render (c : Context α) (name : Str) (status : List Int) :
    Context α × Option Err :=
  let code := match status with
    | code :: _ => code
    | [] => StatusOK
  match c.renderer with
  | none => (c, some Err.rendererNotRegistered)
  | some render =>
    match render name with
    | Except.error e => (c, some e)
    | Except.ok buf =>
      let r1 := c.response.setHeader HeaderContentType MIMETextHTMLCharsetUTF8
      let r2 := r1.writeHeader code
      let (r3, err) := c.writer buf r2
      (Context.Abort { c with response := r3 }, err)

/-! ### Access logger (src/access/access.go) -/

/-- `access.LogResponseWriter` as `CustomLogger` constructs it: the status
captured from the response after `Next` returns, and `BytesWritten`
initialized to 0 (the embedded response pointer is omitted). -/
structure LogRW : Type where
  status : Int
  bytesWritten : Int
deriving DecidableEq, Repr

/-- The log line `Logger` emits, without the elapsed-time field (wall-clock
time is outside the model). -/
def formatAccessLine (clientIP : String) (req : Request) (rw : LogRW) : String :=
  "[" ++ clientIP ++ "] " ++ req.method ++ " " ++ req.url ++ " " ++ req.proto ++
    " " ++ toString rw.status ++ " " ++ toString rw.bytesWritten

/-- `access.CustomLogger` (access.go lines 46-61): capture the request, call
`Next`, build the LogResponseWriter from the post-chain response, invoke the
supplied callback once, and return `Next`'s error.  The user-supplied
`LogWriterFunc` is modelled by its observable effect on the context's
`accessLog` stream; the start-timestamp/elapsed computation is wall-clock
time, outside the model. -/
def CustomLogger (loggerFunc : Request → LogRW → List String → List String)
    (nextF : Context α → Option (Context α × Option Err)) : Handler α :=
  fun c =>
    let req := c.request
    match nextF c with
    | none => none
    | some (c1, err) =>
      let rw : LogRW := ⟨c1.response.status, 0⟩
      some ({ c1 with accessLog := loggerFunc req rw c1.accessLog }, err)

/-- The `logger` closure `access.Logger` builds (access.go lines 76-81): a
formatted line from `GetClientIP`, the request line, status and size, handed
to the log sink — here, appended to the `accessLog` stream. -/
def loggerLineWriter (req : Request) (rw : LogRW) (lg : List String) : List String :=
  lg ++ [formatAccessLine (GetClientIP req) req rw]

/-- `access.Logger` (access.go lines 75-83): `CustomLogger` applied to the
standard line writer. -/
def Logger (nextF : Context α → Option (Context α × Option Err)) : Handler α :=
  CustomLogger loggerLineWriter nextF

/-! ### Body-limit middleware (src/blimit/body_limit.go) -/

/-- The per-request closure returned by `blimit.BodyLimitWithConfig`
(body_limit.go lines 69-88): skip when the skipper says so; reject a declared
`Content-Length` above the limit before anything is read; otherwise check a
reader out of the pool (`poolRead` is the `read` counter the pooled reader
arrives with — `Reset` does not clear it), rebind it over the request body,
substitute it as the request body and run the rest of the chain. -/
def BodyLimitWithConfig (skipper : Context α → Bool) (limit poolRead : Int)
    (nextF : Context α → Option (Context α × Option Err)) : Handler α :=
  fun c =>
    if skipper c then nextF c
    else if limit < c.request.contentLength then some (c, some Err.tooLarge)
    else
      let r : LimitedReader := { limit := limit, read := poolRead, reader := c.request.body }
      nextF { c with request := { c.request with limitedBody := some r },
                     poolGets := c.poolGets + 1 }

/-- Reference executor following the claim's words: starting at position `j`,
invoke each handler of `hs` from `j` to the end in order, each exactly once;
if an invocation returns a non-nil error stop immediately and return that
error; if every invocation returns nil, return nil.  Between invocations the
cursor moves to the next position. -/
def runFromSpec (hs : List (Handler α)) (j : Nat) (c : Context α) :
    Option (Context α × Option Err) :=
  match h : hs.get? j with
  | none => some (c, none)
  | some hd =>
    match hd c with
    | none => none
    | some (c', some e) => some (c', some e)
    | some (c', none) => runFromSpec hs (j + 1) { c' with index := (j : Int) + 1 }
termination_by hs.length - j
decreasing_by
  have hj : j < hs.length := by
    by_contra hge
    rw [List.get?_eq_none.mpr (Nat.le_of_not_lt hge)] at h
    exact Option.noConfusion h
  omega

/-- The interpreter agrees with the reference executor whenever the handlers
leave the cursor where they found it (in Go terms: handlers that do not call
`Next`, `Abort` or `Reset` themselves). -/
theorem nextLoop_eq_runFromSpec (hs : List (Handler α))
    (hpres : ∀ h ∈ hs, ∀ c r, h c = some r → r.fst.index = c.index) :
    ∀ (fuel j : Nat) (c : Context α), c.index = (j : Int) →
      hs.length - j < fuel → nextLoop hs fuel c = runFromSpec hs j c := by
  intro fuel
  induction fuel with
  | zero => intro j c _ hf; omega
  | succ fuel ih =>
    intro j c hc hf
    by_cases hj : j < hs.length
    · have hcond : 0 ≤ c.index ∧ c.index < (hs.length : Int) := by
        refine ⟨by rw [hc]; exact Int.ofNat_nonneg j, by rw [hc]; exact_mod_cast hj⟩
      have htn : c.index.toNat = j := by rw [hc]; rfl
      have hget : hs.get? j = some (hs.get ⟨j, hj⟩) := List.get?_eq_get hj
      rw [nextLoop, if_pos hcond, htn, hget, runFromSpec, hget]
      rcases hr : hs.get ⟨j, hj⟩ c with _ | ⟨c', e⟩
      · simp [hr]
      · rcases e with _ | err
        · have hidx : c'.index = (j : Int) := by
            have := hpres _ (hs.get_mem j hj) c (c', none) hr
            rw [hc] at this
            exact this
          have hrec := ih (j + 1) { c' with index := (j : Int) + 1 }
            (by push_cast; ring) (by omega)
          simp [hr, hidx, hrec]
        · simp [hr]
    · have h1 : ¬(0 ≤ c.index ∧ c.index < (hs.length : Int)) := by
        rw [hc]; intro hco; exact hj (by exact_mod_cast hco.2)
      have h2 : ¬(c.index < (hs.length : Int)) := by
        rw [hc]; exact fun hlt => hj (by exact_mod_cast hlt)
      have hdrop : hs.get? j = none := List.get?_eq_none.mpr (Nat.le_of_not_lt hj)
      rw [nextLoop, if_neg h1, if_neg h2, runFromSpec]
      rw [hdrop]

/-- Claim C1: `Next` first increments the cursor and then runs exactly like
the reference executor `runFromSpec` from the new cursor position: each
handler from there to the end of the chain is invoked in order, each at most
once, iteration stops at the first non-nil error which is returned to the
caller, and nil is returned when every invocation returns nil.  Stated for
chains whose handlers leave the cursor unchanged. -/
theorem next_runs_handlers_in_order (hs : List (Handler α))
    (hpres : ∀ h ∈ hs, ∀ c r, h c = some r → r.fst.index = c.index)
    (c : Context α) (s : Nat) (hstart : c.index + 1 = (s : Int)) :
    Context.Next hs (hs.length + 1) c = runFromSpec hs s { c with index := (s : Int) } := by
  have : ({ c with index := c.index + 1 } : Context α) = { c with index := (s : Int) } := by
    rw [hstart]
  rw [Context.Next, this]
  exact nextLoop_eq_runFromSpec hs hpres (hs.length + 1) s _ rfl (by omega)

/-- Claim C2: `Abort` sets the cursor to the chain length; from any cursor at
or past the chain length, `Next` invokes no handler and returns nil, merely
bumping the cursor — in particular every `Next` after an `Abort` does so, no
matter which handlers the chain holds. -/
theorem abort_stops_chain (α : Type) :
    (∀ c : Context α, (Context.Abort c).index = (c.nhandlers : Int)) ∧
    (∀ (hs : List (Handler α)) (fuel : Nat) (c : Context α),
      1 ≤ fuel → (hs.length : Int) ≤ c.index →
      Context.Next hs fuel c = some ({ c with index := c.index + 1 }, none)) ∧
    (∀ (hs : List (Handler α)) (fuel : Nat) (c : Context α),
      1 ≤ fuel → hs.length = c.nhandlers →
      Context.Next hs fuel (Context.Abort c) =
        some ({ c with index := (c.nhandlers : Int) + 1 }, none)) := by
  have hmain : ∀ (hs : List (Handler α)) (fuel : Nat) (c : Context α),
      1 ≤ fuel → (hs.length : Int) ≤ c.index →
      Context.Next hs fuel c = some ({ c with index := c.index + 1 }, none) := by
    intro hs fuel c hfuel hge
    obtain ⟨f, rfl⟩ : ∃ f, fuel = f + 1 := ⟨fuel - 1, by omega⟩
    rw [Context.Next, nextLoop, if_neg (by simp only; omega), if_neg (by simp only; omega)]
  refine ⟨fun c => rfl, hmain, ?_⟩
  intro hs fuel c hfuel hlen
  have := hmain hs fuel (Context.Abort c) hfuel (by simp [Context.Abort, hlen])
  simpa [Context.Abort] using this

/-! ### Specification-side definitions used in the claim statements -/

/-- The claim's words for the status an output helper writes: the first
optional status argument, or 200 OK when none is given. -/
def statusFromSpec (status : List Int) : Int :=
  match status with
  | code :: _ => code
  | [] => StatusOK

/-- A data writer that serializes the payload without touching the status
line (true of the default writer and every real `DataWriter`, which only
write body bytes). -/
def preservesStatus (w : DWriter) : Prop :=
  ∀ s r, ((w s r).fst).status = r.status

theorem string_length_pos_iff (s : String) : 0 < s.length ↔ s ≠ "" := by
  constructor
  · intro h he
    rw [he] at h
    exact absurd h (by decide)
  · intro h
    rcases s with ⟨data⟩
    cases data with
    | nil => exact absurd rfl h
    | cons c cs => simp [String.length]

/-- Shared branch lemma: when the `X-Real-IP` header is non-empty,
`GetClientIP` returns that value truncated at its last colon. -/
theorem getClientIP_real_branch (req : Request)
    (h : headerGet req.headers "X-Real-IP" ≠ "") :
    GetClientIP req = stripLastColon (headerGet req.headers "X-Real-IP") := by
  simp [GetClientIP, h]

/-! ### Concrete fixtures used by witnesses and counterexamples -/

def wRequest : Request :=
  { method := "GET", url := "/", proto := "HTTP/1.1", headers := [],
    remoteAddr := "1.2.3.4:5678", contentLength := 0, body := [],
    limitedBody := none }

def wResponse : Response :=
  { status := 200, committed := false, headers := [], body := "" }

def wRenderFn : String → Except Err String := fun _ => Except.ok "rendered"

def wCtx : Context Unit :=
  { request := wRequest, response := wResponse, ktx := Kontext.background,
    data := none, index := -1, nhandlers := 1, writer := DefaultDataWriter,
    renderer := some wRenderFn, accessLog := [], poolGets := 0 }

def wHandler : Handler Unit := fun c => some (c, none)

def wBumped : Context Unit := { wCtx with index := wCtx.index + 1 }

def wLogF : Request → LogRW → List String → List String := fun _ _ lg => lg ++ ["hit"]

def wSkipFalse : Context Unit → Bool := fun _ => false

def wNextF : Context Unit → Option (Context Unit × Option Err) := fun _ => none

def wBigCtx : Context Unit := { wCtx with request := { wRequest with contentLength := 10 } }

def c9Req : Request :=
  { method := "GET", url := "/", proto := "HTTP/1.1",
    headers := [("X-Real-IP", "10.0.0.1:8080")], remoteAddr := "9.9.9.9:443",
    contentLength := 0, body := [], limitedBody := none }

def c9wReq : Request := { c9Req with headers := [("X-Real-IP", "7.7.7.7")] }

def c10Ctx : Context Unit :=
  { wCtx with request := { wRequest with headers := [("X-Forwarded-For", "8.8.8.8")] } }

/-! ### Claim theorems (continued) -/

/-- Witness for the claim C1 theorem at a concrete one-handler chain. -/
theorem next_runs_handlers_in_order_w :
    Context.Next [wHandler] ([wHandler].length + 1) wCtx =
      runFromSpec [wHandler] 0 { wCtx with index := ((0 : Nat) : Int) } := by
  refine next_runs_handlers_in_order [wHandler] ?_ wCtx 0 (by decide)
  intro h hmem c r hr
  rw [List.mem_singleton] at hmem
  subst hmem
  simp only [wHandler] at hr
  cases hr
  rfl

/-- Witness for the claim C2 theorem: a `Next` call right after `Abort` on a
one-handler chain runs nothing and returns nil. -/
theorem abort_stops_chain_w :
    Context.Next [wHandler] 1 (Context.Abort wCtx) =
      some ({ wCtx with index := (wCtx.nhandlers : Int) + 1 }, none) :=
  (abort_stops_chain Unit).2.2 [wHandler] 1 wCtx (by decide) (by decide)

/-- Claim C5: when the skip predicate declines and the declared
Content-Length exceeds the ceiling, the body-limit handler returns the
too-large error with the context untouched: the body stream is never read or
substituted, no reader leaves the pool (`poolGets` unchanged), and the result
does not depend on `nextF`, i.e. `Next` is never called. -/
theorem bodyLimit_rejects_oversized_declared (skipper : Context α → Bool)
    (limit poolRead : Int) (nextF : Context α → Option (Context α × Option Err))
    (c : Context α) (hskip : skipper c = false)
    (hlen : limit < c.request.contentLength) :
    BodyLimitWithConfig skipper limit poolRead nextF c = some (c, some Err.tooLarge) := by
  simp [BodyLimitWithConfig, hskip, hlen]

/-- Witness for the claim C5 theorem: ceiling 4, declared length 10. -/
theorem bodyLimit_rejects_oversized_declared_w :
    BodyLimitWithConfig wSkipFalse 4 0 wNextF wBigCtx = some (wBigCtx, some Err.tooLarge) :=
  bodyLimit_rejects_oversized_declared wSkipFalse 4 0 wNextF wBigCtx rfl (by decide)

/-- Claim C6: after `Reset`, the context holds exactly the given request and
response, a fresh non-cancelled cancellation context, an empty store (`Get`
yields nil for every key, whatever the prior request stored), cursor -1 and
the default writer. -/
theorem reset_clears_per_request_state (c : Context α) (response : Response)
    (request : Request) :
    (Context.Reset c response request).request = request ∧
    (Context.Reset c response request).response = response ∧
    (Context.Reset c response request).ktx = Kontext.background ∧
    (Context.Reset c response request).ktx.cancelled = false ∧
    (∀ k, (Context.Reset c response request).Get k = none) ∧
    (Context.Reset c response request).index = -1 ∧
    (Context.Reset c response request).writer = DefaultDataWriter :=
  ⟨rfl, rfl, rfl, rfl, fun _ => rfl, rfl, rfl⟩

/-- Claim C7 counterexample: on a fresh context with a one-handler chain,
`NoContent` leaves the cursor at -1 instead of aborting to the chain
length 1, refuting that all three output helpers call `Abort`. -/
theorem noContent_does_not_abort :
    (Context.NoContent wCtx []).fst.index = -1 ∧
    ((Context.NoContent wCtx []).fst.nhandlers : Int) = 1 ∧
    (Context.NoContent wCtx []).fst.index ≠
      ((Context.NoContent wCtx []).fst.nhandlers : Int) :=
  ⟨rfl, rfl, by decide⟩

/-- Claim C7 (amended): `String` always, and `Render` whenever a renderer is
registered and rendering succeeds, set the response status to the first
optional status argument (200 OK when none is given) and call `Abort` before
returning; `NoContent` sets the status the same way but returns nil without
calling `Abort`, leaving the cursor untouched. -/
theorem output_helpers_status_and_abort (α : Type) :
    (∀ (c : Context α) (s : Str) (args : List Int),
      c.response.committed = false → preservesStatus c.writer →
      (Context.String c s args).fst.response.status = statusFromSpec args ∧
      (Context.String c s args).fst.index = (c.nhandlers : Int)) ∧
    (∀ (c : Context α) (name : Str) (args : List Int)
      (rf : Str → Except Err Str) (buf : Str),
      c.renderer = some rf → rf name = Except.ok buf →
      c.response.committed = false → preservesStatus c.writer →
      (Context.Render c name args).fst.response.status = statusFromSpec args ∧
      (Context.Render c name args).fst.index = (c.nhandlers : Int)) ∧
    (∀ (c : Context α) (args : List Int),
      c.response.committed = false →
      (Context.NoContent c args).fst.response.status = statusFromSpec args ∧
      (Context.NoContent c args).fst.index = c.index ∧
      (Context.NoContent c args).snd = none) := by
  refine ⟨fun c s args hcom hw => ⟨?_, rfl⟩,
          fun c name args rf buf hrend hok hcom hw => ?_,
          fun c args hcom => ⟨?_, rfl, rfl⟩⟩
  · have hw' : ∀ s r, ((c.writer s r).fst).status = r.status := hw
    simp only [Context.String, Context.Abort, Response.writeHeader, Response.setHeader,
      hcom, hw', Bool.false_eq_true, if_false]
    cases args <;> rfl
  · have hw' : ∀ s r, ((c.writer s r).fst).status = r.status := hw
    simp only [Context.Render, hrend, hok]
    refine ⟨?_, rfl⟩
    simp only [Context.Abort, Response.writeHeader, Response.setHeader, hcom, hw',
      Bool.false_eq_true, if_false]
    cases args <;> rfl
  · simp only [Context.NoContent, Response.writeHeader, hcom, Bool.false_eq_true, if_false]
    cases args <;> rfl

/-- Witness for the claim C7 theorem: all three helpers evaluated on the
concrete fresh context. -/
theorem output_helpers_status_and_abort_w :
    ((Context.String wCtx "ok" []).fst.response.status = statusFromSpec [] ∧
      (Context.String wCtx "ok" []).fst.index = (wCtx.nhandlers : Int)) ∧
    ((Context.Render wCtx "home" [201]).fst.response.status = statusFromSpec [201] ∧
      (Context.Render wCtx "home" [201]).fst.index = (wCtx.nhandlers : Int)) ∧
    ((Context.NoContent wCtx []).fst.response.status = statusFromSpec [] ∧
      (Context.NoContent wCtx []).fst.index = wCtx.index ∧
      (Context.NoContent wCtx []).snd = none) :=
  ⟨(output_helpers_status_and_abort Unit).1 wCtx "ok" [] rfl (by intro s r; rfl),
   (output_helpers_status_and_abort Unit).2.1 wCtx "home" [201] wRenderFn "rendered"
     rfl rfl rfl (by intro s r; rfl),
   (output_helpers_status_and_abort Unit).2.2 wCtx [] rfl⟩

/-- Claim C8: `CustomLogger` runs the rest of the chain once and, after it
completes, applies the logging callback exactly once — the resulting context
extends the post-chain `accessLog` by the single callback application, whose
LogResponseWriter carries the post-chain response status and the request
captured before `Next` — and returns `Next`'s error value unchanged; `Logger`
is `CustomLogger` of the standard line writer and hence appends exactly one
formatted line and passes the error through identically. -/
theorem customLogger_logs_once_and_returns_error
    (loggerFunc : Request → LogRW → List String → List String)
    (hs : List (Handler α)) (fuel : Nat) (c c1 : Context α) (err : Option Err)
    (h : Context.Next hs fuel c = some (c1, err)) :
    CustomLogger loggerFunc (Context.Next hs fuel) c =
      some ({ c1 with accessLog := (loggerFunc c.request ⟨c1.response.status, 0⟩
        c1.accessLog) }, err) ∧
    Logger (Context.Next hs fuel) c =
      some ({ c1 with accessLog := (c1.accessLog ++
        [formatAccessLine (GetClientIP c.request) c.request
          ⟨c1.response.status, 0⟩]) }, err) := by
  constructor
  · simp only [CustomLogger, h]
  · simp only [Logger, CustomLogger, loggerLineWriter, h]

/-- Witness for the claim C8 theorem on the empty downstream chain. -/
theorem customLogger_logs_once_and_returns_error_w :
    CustomLogger wLogF (Context.Next ([] : List (Handler Unit)) 1) wCtx =
      some ({ wBumped with accessLog := (wLogF wCtx.request ⟨wBumped.response.status, 0⟩
        wBumped.accessLog) }, none) ∧
    Logger (Context.Next ([] : List (Handler Unit)) 1) wCtx =
      some ({ wBumped with accessLog := (wBumped.accessLog ++
        [formatAccessLine (GetClientIP wCtx.request) wCtx.request
          ⟨wBumped.response.status, 0⟩]) }, none) :=
  customLogger_logs_once_and_returns_error wLogF [] 1 wCtx wBumped none rfl

/-- Claim C9 counterexample: with header `X-Real-IP: 10.0.0.1:8080`,
`GetClientIP` truncates the header-derived value at its last colon instead of
using it as-is, refuting that port stripping applies only to the raw peer
address. -/
theorem getClientIP_strips_header_values :
    GetClientIP c9Req = "10.0.0.1" ∧ GetClientIP c9Req ≠ "10.0.0.1:8080" :=
  ⟨rfl, by decide⟩

/-- Claim C9 (amended): the access log's client IP is the first non-empty of
the `X-Real-IP` header, the `X-Forwarded-For` header and the raw peer
address, and the resolved value — whatever its source — is then truncated at
its last colon (values without a colon are used unmodified). -/
theorem getClientIP_precedence_then_strip (req : Request) :
    (headerGet req.headers "X-Real-IP" ≠ "" →
      GetClientIP req = stripLastColon (headerGet req.headers "X-Real-IP")) ∧
    (headerGet req.headers "X-Real-IP" = "" →
      headerGet req.headers "X-Forwarded-For" ≠ "" →
      GetClientIP req = stripLastColon (headerGet req.headers "X-Forwarded-For")) ∧
    (headerGet req.headers "X-Real-IP" = "" →
      headerGet req.headers "X-Forwarded-For" = "" →
      GetClientIP req = stripLastColon req.remoteAddr) := by
  refine ⟨fun h1 => getClientIP_real_branch req h1, fun h1 h2 => ?_, fun h1 h2 => ?_⟩
  · simp [GetClientIP, h1, h2]
  · simp [GetClientIP, h1, h2]

/-- Witness for the claim C9 theorem: a colon-free `X-Real-IP` value is used
as resolved and survives the truncation step unchanged. -/
theorem getClientIP_precedence_then_strip_w :
    GetClientIP c9wReq = stripLastColon (headerGet c9wReq.headers "X-Real-IP") :=
  (getClientIP_precedence_then_strip c9wReq).1 (by decide)

/-- Claim C10: `Context.RealIP` prefers `X-Forwarded-For`, then `X-Real-IP`
(the reverse of `access.GetClientIP`, which resolves `X-Real-IP` first, as the
final conjunct shows), returns a header-derived value unmodified, and applies
`net.SplitHostPort` to the raw peer address only when neither header is
present. -/
theorem realIP_precedence (c : Context α) :
    (0 < (headerGet c.request.headers HeaderXForwardedFor).length →
      Context.RealIP c = headerGet c.request.headers HeaderXForwardedFor) ∧
    ((headerGet c.request.headers HeaderXForwardedFor).length = 0 →
      0 < (headerGet c.request.headers HeaderXRealIP).length →
      Context.RealIP c = headerGet c.request.headers HeaderXRealIP) ∧
    ((headerGet c.request.headers HeaderXForwardedFor).length = 0 →
      (headerGet c.request.headers HeaderXRealIP).length = 0 →
      Context.RealIP c = splitHostPortHost c.request.remoteAddr) ∧
    (0 < (headerGet c.request.headers HeaderXForwardedFor).length →
      0 < (headerGet c.request.headers HeaderXRealIP).length →
      Context.RealIP c = headerGet c.request.headers HeaderXForwardedFor ∧
      GetClientIP c.request = stripLastColon (headerGet c.request.headers HeaderXRealIP)) := by
  refine ⟨fun h1 => ?_, fun h1 h2 => ?_, fun h1 h2 => ?_, fun h1 h2 => ⟨?_, ?_⟩⟩
  · simp [Context.RealIP, if_pos h1]
  · simp [Context.RealIP, h1, if_pos h2]
  · simp [Context.RealIP, h1, h2]
  · simp [Context.RealIP, if_pos h1]
  · exact getClientIP_real_branch c.request ((string_length_pos_iff _).mp h2)

/-- Witness for the claim C10 theorem: with only `X-Forwarded-For` set,
`RealIP` returns it unmodified. -/
theorem realIP_precedence_w :
    Context.RealIP c10Ctx = headerGet c10Ctx.request.headers HeaderXForwardedFor :=
  (realIP_precedence c10Ctx).1 (by decide)

/-- Sanity check of the embedded `net.SplitHostPort`: a bracketed IPv6 peer
address succeeds and yields the text between the brackets, an unbracketed
IPv4 address loses its port, a portless address and a bare (unbracketed)
IPv6 literal are error cases that leave the host empty. -/
theorem splitHostPortHost_cases :
    splitHostPortHost "[::1]:80" = "::1" ∧
    splitHostPortHost "1.2.3.4:5678" = "1.2.3.4" ∧
    splitHostPortHost "1.2.3.4" = "" ∧
    splitHostPortHost "::1" = "" := by
  refine ⟨?_, ?_, ?_, ?_⟩ <;> decide

end Makross
